import Mathlib

/-!
Shallow embedding of `gridwxcomp/spatial.py` (grid-et-bias repository).

Conventions of the embedding:
* Python floats are modelled as exact rationals (`ℚ`) for the affine /
  combinatorial computations, and as real numbers (`ℝ`) for the parts of
  the inverse-distance estimator that use `sqrt` and `pow`.
* `None`-able float arguments are `Option ℚ`; `NaN` entries of a value
  column are `Option ℚ` with `none` for `NaN`.
* File-system effects are made explicit: existence flags are passed as
  `Bool` arguments, raised exceptions become an `Except` error value, and
  the sequence of states observable at the grid output path during
  `make_grid` is modelled as an explicit trace.
-/

namespace Gridwxcomp

/-- Constant gridMET resolution in decimal degrees, the literal
`CELL_SIZE = 0.041666666666666664` of `spatial.py`. -/
def CELL_SIZE : ℚ := 0.041666666666666664

/-- Boolean order on `ℚ` used for the `sort_values` calls of
`get_subgrid_bounds`. -/
def qle (a b : ℚ) : Bool := a ≤ b

/-- Exceptions that `get_subgrid_bounds` can raise: `FileNotFoundError`
when the summary CSV is missing, and `IndexError` when indexing `lons[0]`
of an empty array. -/
inductive PyError where
  | fileNotFound : PyError
  | indexError : PyError
deriving DecidableEq

/-- Embedding of `get_subgrid_bounds(in_path, buffer)` (spatial.py lines
343-366).  The file lookup is abstracted by the flag `in_file_exists`; the
rows of the summary CSV are abstracted to their `(LON, LAT)` pairs.  The
source sorts the `LON` (resp. `LAT`) column and takes `lons[0]` and
`lons[-1]`; indexing `[0]` on an empty array raises `IndexError`.  Each
extreme is moved outward by `CELL_SIZE / 2` and then by
`CELL_SIZE * buffer`. -/
def get_subgrid_bounds (in_file_exists : Bool) (pts : List (ℚ × ℚ))
    (buffer : ℤ) : Except PyError (ℚ × ℚ × ℚ × ℚ) :=
  if !in_file_exists then .error .fileNotFound
  else
    let lons := (pts.map Prod.fst).mergeSort qle
    let lats := (pts.map Prod.snd).mergeSort qle
    match lons, lats with
    | [], _ => .error .indexError
    | _ :: _, [] => .error .indexError
    | l0 :: ls, t0 :: ts =>
      let lon_min := l0 - CELL_SIZE / 2 - CELL_SIZE * buffer
      let lon_max := (l0 :: ls).getLast (List.cons_ne_nil _ _)
        + CELL_SIZE / 2 + CELL_SIZE * buffer
      let lat_min := t0 - CELL_SIZE / 2 - CELL_SIZE * buffer
      let lat_max := (t0 :: ts).getLast (List.cons_ne_nil _ _)
        + CELL_SIZE / 2 + CELL_SIZE * buffer
      .ok (lon_min, lon_max, lat_min, lat_max)

/-- Minimum of a list of coordinates (spec-side description of the
"minimal axis-aligned bounding rectangle"). -/
def bbox_min (xs : List ℚ) : ℚ :=
  match xs with
  | [] => 0
  | a :: t => t.foldl min a

/-- Maximum of a list of coordinates (spec-side description of the
"minimal axis-aligned bounding rectangle"). -/
def bbox_max (xs : List ℚ) : ℚ :=
  match xs with
  | [] => 0
  | a :: t => t.foldl max a

/-- Spec-side description of the Bounds Calculator contract: the minimal
bounding rectangle of the points, expanded by half a cell and then by
`buffer` cells on every edge. -/
def spec_bounds (pts : List (ℚ × ℚ)) (buffer : ℤ) : ℚ × ℚ × ℚ × ℚ :=
  (bbox_min (pts.map Prod.fst) - CELL_SIZE / 2 - CELL_SIZE * buffer,
   bbox_max (pts.map Prod.fst) + CELL_SIZE / 2 + CELL_SIZE * buffer,
   bbox_min (pts.map Prod.snd) - CELL_SIZE / 2 - CELL_SIZE * buffer,
   bbox_max (pts.map Prod.snd) + CELL_SIZE / 2 + CELL_SIZE * buffer)

/-- Embedding of `np.round` applied to a scalar: round to the nearest
integer, ties to the nearest even integer (numpy's "banker's rounding"). -/
def npRound (q : ℚ) : ℤ :=
  let f := ⌊q⌋
  let frac := q - f
  if frac < 1 / 2 then f
  else if 1 / 2 < frac then f + 1
  else if f % 2 = 0 then f else f + 1

/-- The lattice dimensioning state of `interpolate` (spatial.py lines
978-995): the axis cell counts and max coordinates after the square-lattice
correction, together with the recorded pre-extension ("out") copies. -/
structure LatticeDims where
  nx_cells : ℕ
  ny_cells : ℕ
  lat_max : ℚ
  lon_max : ℚ
  nx_cells_out : ℕ
  ny_cells_out : ℕ
  lat_max_out : ℚ
  lon_max_out : ℚ
deriving DecidableEq

/-- Embedding of the lattice dimension computation of `interpolate`
(spatial.py lines 978-995).  `int(np.round(np.abs((lon_min - lon_max) /
CELL_SIZE)))` is `npRound` of a nonnegative quantity truncated to `ℕ`;
the pre-extension counts and max coordinates are copied first, then if the
two counts differ the smaller-count axis is grown by the difference. -/
def latticeDims (lon_min lon_max lat_min lat_max : ℚ) : LatticeDims :=
  let nx_cells : ℕ := (npRound (|(lon_min - lon_max) / CELL_SIZE|)).toNat
  let ny_cells : ℕ := (npRound (|(lat_min - lat_max) / CELL_SIZE|)).toNat
  if nx_cells ≠ ny_cells then
    let diff : ℕ := ((nx_cells : ℤ) - (ny_cells : ℤ)).natAbs
    if ny_cells < nx_cells then
      ⟨nx_cells, ny_cells + diff, lat_max + diff * CELL_SIZE, lon_max,
       nx_cells, ny_cells, lat_max, lon_max⟩
    else
      ⟨nx_cells + diff, ny_cells, lat_max, lon_max + diff * CELL_SIZE,
       nx_cells, ny_cells, lat_max, lon_max⟩
  else
    ⟨nx_cells, ny_cells, lat_max, lon_max,
     nx_cells, ny_cells, lat_max, lon_max⟩

/-- Raster georeferencing data produced by `interpolate` (spatial.py lines
998-1056): the pixel counts `x_size = len(lons_out)`,
`y_size = len(lats_out)` (computed from the pre-extension counts), and the
GDAL geotransform `gt`, whose origin is the pre-extension `lat_max_out`. -/
structure RasterMeta where
  x_size : ℕ
  y_size : ℕ
  gt : List ℚ
deriving DecidableEq

/-- Embedding of the raster georeferencing of `interpolate`:
`lons_out = np.linspace(lon_min, lon_max_out, int(np.round(nx_cells_out /
scale_factor)) + 1)` has `int(np.round(nx_cells_out / scale_factor)) + 1`
entries, and `gt = [lon_min, pixel_size, 0, lat_max_out, 0, -pixel_size]`
with `pixel_size = CELL_SIZE * scale_factor`. -/
def interpRasterMeta (lon_min lon_max lat_min lat_max scale_factor : ℚ) :
    RasterMeta :=
  let d := latticeDims lon_min lon_max lat_min lat_max
  let pixel_size := CELL_SIZE * scale_factor
  { x_size := (npRound ((d.nx_cells_out : ℚ) / scale_factor)).toNat + 1
    y_size := (npRound ((d.ny_cells_out : ℚ) / scale_factor)).toNat + 1
    gt := [lon_min, pixel_size, 0, d.lat_max_out, 0, -pixel_size] }

/-- Embedding of `if not smooth: smooth = 10` on the `inverse_dist` branch
of `interpolate` (spatial.py lines 1015-1017).  Python's truthiness makes
the default fire both for `None` and for `0`. -/
def eff_smooth_inv_dist (smooth : Option ℚ) : ℚ :=
  match smooth with
  | none => 10
  | some s => if s = 0 then 10 else s

/-- Embedding of `if not power: power = 3` on the `inverse_dist` branch of
`interpolate` (spatial.py lines 1018-1019). -/
def eff_power (power : Option ℚ) : ℚ :=
  match power with
  | none => 3
  | some p => if p = 0 then 3 else p

/-- Embedding of `if not smooth: smooth = -1e-3` on the radial-basis
branch of `interpolate` (spatial.py lines 1032-1033). -/
def eff_smooth_rbf (smooth : Option ℚ) : ℚ :=
  match smooth with
  | none => -1e-3
  | some s => if s = 0 then -1e-3 else s

/-- Result of the missing-data handling step of `interpolate`: either the
variable is skipped (early `return`), or interpolation proceeds with the
retained values and point coordinates. -/
inductive MaskStep where
  | skip : MaskStep
  | proceed (values : List ℚ) (lon_pts lat_pts : List ℚ) : MaskStep
deriving DecidableEq

/-- Boolean-mask indexing `xs[mask]` of numpy, keeping the entries whose
mask bit is `true`. -/
def apply_mask (mask : List Bool) (xs : List ℚ) : List ℚ :=
  ((mask.zip xs).filter (fun p => p.1)).map (fun p => p.2)

/-- Embedding of the missing-data handling of `interpolate` (spatial.py
lines 954-971).  `values` holds `none` for `NaN` entries.  The source
computes `mask = ~np.isnan(values)` and `n_missing = np.sum(~mask)`, and
returns early exactly when `len(mask) == n_missing or len(mask) == 1`;
otherwise it keeps the masked values and point coordinates (the mask is
applied only when at least one value is `NaN`). -/
def mask_missing (values : List (Option ℚ)) (lon_pts lat_pts : List ℚ) :
    MaskStep :=
  if values.any (fun v => v.isNone) then
    let mask := values.map (fun v => v.isSome)
    let n_missing := (mask.filter (fun b => b = false)).length
    if values.length = n_missing || values.length = 1 then MaskStep.skip
    else
      MaskStep.proceed (values.filterMap id)
        (apply_mask mask lon_pts) (apply_mask mask lat_pts)
  else MaskStep.proceed (values.filterMap id) lon_pts lat_pts

/-- One row of the gridMET metadata CSV `gridmet_cell_data.csv`
(the Reference Cell Catalog): an identifier and a centroid. -/
structure GridmetCell where
  GRIDMET_ID : ℤ
  LON : ℚ
  LAT : ℚ
deriving DecidableEq

/-- Embedding of `np.isclose(a, b)` with numpy's default tolerances:
`|a - b| <= atol + rtol * |b|` with `rtol = 1e-5` and `atol = 1e-8`. -/
def np_isclose (a b : ℚ) : Bool := |a - b| ≤ 1e-8 + 1e-5 * |b|

/-- The `(minx, miny)` components of `shapely` `poly.bounds` for a polygon
ring given by its coordinate list. -/
def poly_bounds_min : List (ℚ × ℚ) → ℚ × ℚ
  | [] => (0, 0)
  | p :: rest => rest.foldl (fun m q => (min m.1 q.1, min m.2 q.2)) p

/-- The centroid used by `get_cell_ID`: `poly.bounds[0] + CELL_SIZE / 2`
and `poly.bounds[1] + CELL_SIZE / 2`. -/
def cell_centroid (coords : List (ℚ × ℚ)) : ℚ × ℚ :=
  ((poly_bounds_min coords).1 + CELL_SIZE / 2,
   (poly_bounds_min coords).2 + CELL_SIZE / 2)

/-- Embedding of `get_cell_ID(coords, cell_data)` (spatial.py lines
566-605): select the catalog rows whose `LON` and `LAT` are both
`np.isclose` to the cell centroid; if exactly one row was selected return
its `GRIDMET_ID`, otherwise return the sentinel `-999`. -/
def get_cell_ID (coords : List (ℚ × ℚ)) (cell_data : List GridmetCell) : ℤ :=
  let lon_c := (cell_centroid coords).1
  let lat_c := (cell_centroid coords).2
  let row := cell_data.filter
    (fun c => np_isclose c.LON lon_c && np_isclose c.LAT lat_c)
  match row with
  | [c] => c.GRIDMET_ID
  | _ => -999

/-- The gridMET summary table persisted by `gridmet_zonal_stats`:
the variable column names (beyond `GRIDMET_ID`) and for each row the
identifier with its per-column values. -/
structure SummaryTable where
  columns : List String
  rows : List (ℤ × List ℚ)
deriving DecidableEq

/-- Embedding of `existing_df.merge(out_df, on='GRIDMET_ID')` (pandas
inner join): each existing row is paired with every new row of equal
identifier, in left-frame order, and the new variable column is appended. -/
def merge_on_id (existing : SummaryTable) (new : List (ℤ × ℚ))
    (var_name : String) : SummaryTable :=
  { columns := existing.columns ++ [var_name]
    rows := existing.rows.flatMap
      (fun r => ((new.filter (fun n => n.1 = r.1)).map
        (fun n => (r.1, r.2 ++ [n.2])))) }

/-- Embedding of the persistence step of `gridmet_zonal_stats` (spatial.py
lines 1178-1204).  `gridmet_ids` and `means` are the zonal-stats outputs
per fishnet cell; `out_df` drops the rows whose identifier is the sentinel
`-999`; `existing` is the current state of the output CSV (`none` when the
file does not exist).  Returns `some` of the table written, or `none`
when no write is performed (column of the same variable name already
present). -/
def gridmet_zonal_stats_write (gridmet_ids : List ℤ) (means : List ℚ)
    (var_name : String) (existing : Option SummaryTable) :
    Option SummaryTable :=
  let out_df := (gridmet_ids.zip means).filter (fun p => p.1 ≠ -999)
  match existing with
  | none => some ⟨[var_name], out_df.map (fun p => (p.1, [p.2]))⟩
  | some t =>
    if var_name ∈ t.columns then none
    else some (merge_on_id t out_df var_name)

/-- State transformer view of `gridmet_zonal_stats`: the persisted table
after the call (unchanged when no write is performed). -/
def gridmet_zonal_stats_run (existing : Option SummaryTable)
    (gridmet_ids : List ℤ) (means : List ℚ) (var_name : String) :
    Option SummaryTable :=
  match gridmet_zonal_stats_write gridmet_ids means var_name existing with
  | none => existing
  | some t => some t

/-- Observable state of the grid output path `spatial/grid.shp` at a point
in time during `make_grid`. -/
inductive GridObs where
  /-- No file at the output path. -/
  | absent : GridObs
  /-- The previously persisted (complete) grid output. -/
  | oldGrid : GridObs
  /-- A data source exists with `cells` features written so far, still
  open for writing. -/
  | partialGrid (cells : ℕ) : GridObs
  /-- All features written and the data source closed, but gridMET
  identifiers not yet assigned. -/
  | latticeNoIDs (cells : ℕ) : GridObs
  /-- The finished grid with gridMET identifiers assigned. -/
  | completeGrid (cells : ℕ) : GridObs
deriving DecidableEq

/-- Trace of the states observable at the grid output path during
`make_grid` (spatial.py lines 456-564 and `_update_subgrid`, lines
655-696).  When the output exists and `overwrite` is false the function
returns immediately.  Otherwise an existing output is first deleted
(`os.remove`), a fresh data source is created at the output path, the
`rows * cols` cell features are written to it one by one, and the source
is closed.  `_update_subgrid` then reads the grid, writes the
identifier-annotated copy to a `_tmp` sibling (the output path still holds
the identifier-less lattice), and finally moves the `_tmp` files over the
output. -/
def make_grid_trace (prev_exists overwrite : Bool) (rows cols : ℕ) :
    List GridObs :=
  let initial := if prev_exists then GridObs.oldGrid else GridObs.absent
  if prev_exists && !overwrite then [initial]
  else
    let n := rows * cols
    [initial]
      ++ (if prev_exists then [GridObs.absent] else [])
      ++ [GridObs.partialGrid 0]
      ++ ((List.range n).map fun k => GridObs.partialGrid (k + 1))
      ++ [GridObs.latticeNoIDs n, GridObs.latticeNoIDs n]
      ++ [GridObs.completeGrid n]

/-- The partial-write-safety property claimed of the Grid Builder: every
state observable at the output path during a rebuild is either the old
complete grid or the finished new grid of `n` cells. -/
def grid_atomic_claim (trace : List GridObs) (n : ℕ) : Prop :=
  ∀ s ∈ trace, s = GridObs.oldGrid ∨ s = GridObs.completeGrid n

/-- Recursive worker of `_pointValue(x, y, power, smoothing, xv, yv,
values)` (spatial.py lines 701-721), carrying the running `nominator` and
`denominator`.  The parallel arrays `xv`, `yv`, `values` are modelled as
one list of triples.  Python's `smoothing**2` is the integer power
`smoothing ^ 2`; `math.pow(dist, power)` is the real power
`Real.rpow dist power`. -/
noncomputable def pointValueAux (x y power smoothing : ℝ) :
    List (ℝ × ℝ × ℝ) → ℝ → ℝ → ℝ
  | [], nominator, denominator =>
    if 0 < denominator then nominator / denominator else -999
  | (xi, yi, vi) :: rest, nominator, denominator =>
    let dist := Real.sqrt
      ((x - xi) * (x - xi) + (y - yi) * (y - yi) + smoothing ^ 2)
    if dist < 1e-10 then vi
    else pointValueAux x y power smoothing rest
      (nominator + vi / Real.rpow dist power)
      (denominator + 1 / Real.rpow dist power)

/-- Embedding of `_pointValue` (spatial.py lines 701-721): the
inverse-distance-weighted estimate at node `(x, y)`, with the
singular-weight guard `dist < 0.0000000001` returning the data point value
directly, and `-999` when the denominator is not positive. -/
noncomputable def pointValue (x y power smoothing : ℝ)
    (pts : List (ℝ × ℝ × ℝ)) : ℝ :=
  pointValueAux x y power smoothing pts 0 0

/-- A catalog with two rows whose centroids are within the `np.isclose`
tolerance of each other (their longitudes differ by `1e-6`). -/
def closeCatalog : List GridmetCell :=
  [⟨7, 1, 1⟩, ⟨8, 1 + 1 / 1000000, 1⟩]

/-- Ring coordinates of a fishnet cell whose centroid is exactly
`(1, 1)`. -/
def unitCellCoords : List (ℚ × ℚ) :=
  [(1 - CELL_SIZE / 2, 1 - CELL_SIZE / 2), (1 + CELL_SIZE / 2, 1 - CELL_SIZE / 2),
   (1 + CELL_SIZE / 2, 1 + CELL_SIZE / 2), (1 - CELL_SIZE / 2, 1 + CELL_SIZE / 2),
   (1 - CELL_SIZE / 2, 1 - CELL_SIZE / 2)]

/-- A catalog whose two rows are far apart (farther than the `np.isclose`
tolerance). -/
def farCatalog : List GridmetCell :=
  [⟨7, 1, 1⟩, ⟨8, 2, 2⟩]

end Gridwxcomp

namespace Gridwxcomp

lemma CELL_SIZE_pos : 0 < CELL_SIZE := by norm_num [CELL_SIZE]

lemma qle_iff {a b : ℚ} : qle a b = true ↔ a ≤ b := by
  simp [qle]

lemma qle_trans : ∀ (a b c : ℚ), qle a b → qle b c → qle a c := by
  intro a b c hab hbc
  rw [qle_iff] at *
  exact le_trans hab hbc

lemma qle_total : ∀ (a b : ℚ), qle a b || qle b a := by
  intro a b
  simp only [qle, Bool.or_eq_true, decide_eq_true_eq]
  exact le_total a b

lemma sorted_head_le {a : ℚ} {t : List ℚ}
    (h : (a :: t).Pairwise (fun x y => qle x y = true)) :
    ∀ x ∈ a :: t, a ≤ x := by
  intro x hx
  rcases List.mem_cons.mp hx with rfl | hx
  · exact le_refl x
  · exact qle_iff.mp ((List.pairwise_cons.mp h).1 x hx)

lemma sorted_le_getLast :
    ∀ (l : List ℚ), l.Pairwise (fun x y => qle x y = true) →
      ∀ (hne : l ≠ []), ∀ x ∈ l, x ≤ l.getLast hne
  | [] => by intro _ hne; exact absurd rfl hne
  | [a] => by
    intro _ _ x hx
    simp at hx
    simp [hx]
  | a :: b :: t => by
    intro h hne x hx
    have htail := (List.pairwise_cons.mp h).2
    have hlast : (a :: b :: t).getLast hne
        = (b :: t).getLast (List.cons_ne_nil b t) := by
      simp [List.getLast]
    rcases List.mem_cons.mp hx with rfl | hx
    · have hmem := List.getLast_mem (List.cons_ne_nil b t)
      have hle := (List.pairwise_cons.mp h).1 _ hmem
      rw [hlast]
      exact qle_iff.mp hle
    · rw [hlast]
      exact sorted_le_getLast (b :: t) htail (List.cons_ne_nil b t) x hx

lemma foldl_min_mem (t : List ℚ) : ∀ a : ℚ, t.foldl min a ∈ a :: t := by
  induction t with
  | nil => simp
  | cons b t ih =>
    intro a
    rw [List.foldl_cons]
    rcases List.mem_cons.mp (ih (min a b)) with h | h
    · rw [h]
      rcases min_choice a b with h2 | h2 <;> rw [h2] <;> simp
    · simp [h]

lemma foldl_min_le (t : List ℚ) : ∀ a : ℚ, ∀ x ∈ a :: t, t.foldl min a ≤ x := by
  induction t with
  | nil =>
    intro a x hx
    simp at hx
    simp [hx]
  | cons b t ih =>
    intro a x hx
    rw [List.foldl_cons]
    rcases List.mem_cons.mp hx with h | hx
    · subst h
      exact le_trans (ih (min x b) (min x b) (by simp)) (min_le_left x b)
    · rcases List.mem_cons.mp hx with h | hx
      · subst h
        exact le_trans (ih (min a x) (min a x) (by simp)) (min_le_right a x)
      · exact ih (min a b) x (by simp [hx])

lemma foldl_max_mem (t : List ℚ) : ∀ a : ℚ, t.foldl max a ∈ a :: t := by
  induction t with
  | nil => simp
  | cons b t ih =>
    intro a
    rw [List.foldl_cons]
    rcases List.mem_cons.mp (ih (max a b)) with h | h
    · rw [h]
      rcases max_choice a b with h2 | h2 <;> rw [h2] <;> simp
    · simp [h]

lemma foldl_le_max (t : List ℚ) : ∀ a : ℚ, ∀ x ∈ a :: t, x ≤ t.foldl max a := by
  induction t with
  | nil =>
    intro a x hx
    simp at hx
    simp [hx]
  | cons b t ih =>
    intro a x hx
    rw [List.foldl_cons]
    rcases List.mem_cons.mp hx with h | hx
    · subst h
      exact le_trans (le_max_left x b) (ih (max x b) (max x b) (by simp))
    · rcases List.mem_cons.mp hx with h | hx
      · subst h
        exact le_trans (le_max_right a x) (ih (max a x) (max a x) (by simp))
      · exact ih (max a b) x (by simp [hx])

lemma bbox_min_le {xs : List ℚ} {x : ℚ} (hx : x ∈ xs) : bbox_min xs ≤ x := by
  rcases xs with _ | ⟨a, t⟩
  · simp at hx
  · exact foldl_min_le t a x hx

lemma bbox_min_mem {xs : List ℚ} (hne : xs ≠ []) : bbox_min xs ∈ xs := by
  rcases xs with _ | ⟨a, t⟩
  · exact absurd rfl hne
  · exact foldl_min_mem t a

lemma le_bbox_max {xs : List ℚ} {x : ℚ} (hx : x ∈ xs) : x ≤ bbox_max xs := by
  rcases xs with _ | ⟨a, t⟩
  · simp at hx
  · exact foldl_le_max t a x hx

lemma bbox_max_mem {xs : List ℚ} (hne : xs ≠ []) : bbox_max xs ∈ xs := by
  rcases xs with _ | ⟨a, t⟩
  · exact absurd rfl hne
  · exact foldl_max_mem t a

lemma mergeSort_head_getLast (xs : List ℚ) (a : ℚ) (t : List ℚ)
    (h : xs.mergeSort qle = a :: t) :
    a = bbox_min xs ∧
    (a :: t).getLast (List.cons_ne_nil a t) = bbox_max xs := by
  have hperm := List.mergeSort_perm xs qle
  have hsorted := List.sorted_mergeSort qle_trans qle_total xs
  rw [h] at hperm hsorted
  have hxs_ne : xs ≠ [] := by
    intro hnil
    rw [hnil] at hperm
    exact absurd hperm.eq_nil (by simp)
  have hmem : ∀ x : ℚ, x ∈ a :: t ↔ x ∈ xs := fun x => hperm.mem_iff
  constructor
  · have h1 : a ≤ bbox_min xs :=
      sorted_head_le hsorted _ ((hmem _).mpr (bbox_min_mem hxs_ne))
    have h2 : bbox_min xs ≤ a := bbox_min_le ((hmem a).mp (by simp))
    exact le_antisymm h1 h2
  · set g := (a :: t).getLast (List.cons_ne_nil a t) with hg
    have hgmem : g ∈ xs := (hmem g).mp (List.getLast_mem _)
    have h1 : g ≤ bbox_max xs := le_bbox_max hgmem
    have h2 : bbox_max xs ≤ g :=
      sorted_le_getLast _ hsorted _ _ ((hmem _).mpr (bbox_max_mem hxs_ne))
    exact le_antisymm h1 h2

lemma latticeDims_eq (lon_min lon_max lat_min lat_max : ℚ) :
    latticeDims lon_min lon_max lat_min lat_max =
      { nx_cells := max ((npRound |(lon_min - lon_max) / CELL_SIZE|).toNat)
          ((npRound |(lat_min - lat_max) / CELL_SIZE|).toNat)
        ny_cells := max ((npRound |(lon_min - lon_max) / CELL_SIZE|).toNat)
          ((npRound |(lat_min - lat_max) / CELL_SIZE|).toNat)
        lat_max := lat_max + ((max ((npRound |(lon_min - lon_max) / CELL_SIZE|).toNat)
          ((npRound |(lat_min - lat_max) / CELL_SIZE|).toNat)
          - (npRound |(lat_min - lat_max) / CELL_SIZE|).toNat : ℕ) : ℚ) * CELL_SIZE
        lon_max := lon_max + ((max ((npRound |(lon_min - lon_max) / CELL_SIZE|).toNat)
          ((npRound |(lat_min - lat_max) / CELL_SIZE|).toNat)
          - (npRound |(lon_min - lon_max) / CELL_SIZE|).toNat : ℕ) : ℚ) * CELL_SIZE
        nx_cells_out := (npRound |(lon_min - lon_max) / CELL_SIZE|).toNat
        ny_cells_out := (npRound |(lat_min - lat_max) / CELL_SIZE|).toNat
        lat_max_out := lat_max
        lon_max_out := lon_max } := by
  set A := (npRound |(lon_min - lon_max) / CELL_SIZE|).toNat with hA
  set B := (npRound |(lat_min - lat_max) / CELL_SIZE|).toNat with hB
  rcases Nat.lt_trichotomy A B with h | h | h
  · have hne : A ≠ B := Nat.ne_of_lt h
    have hnot : ¬ B < A := Nat.lt_asymm h
    simp only [latticeDims, ← hA, ← hB, if_pos hne, if_neg hnot]
    have h1 : ((A : ℤ) - B).natAbs = B - A := by omega
    have h2 : max A B = B := Nat.max_eq_right (Nat.le_of_lt h)
    have h3 : max A B - B = 0 := by omega
    have h4 : A + ((A : ℤ) - B).natAbs = max A B := by omega
    simp [h1, h2, h3, h4]
    omega
  · simp only [latticeDims, ← hA, ← hB, h]
    simp
  · have hne : A ≠ B := (Nat.ne_of_lt h).symm
    simp only [latticeDims, ← hA, ← hB, if_pos hne, if_pos h]
    have h1 : ((A : ℤ) - B).natAbs = A - B := by omega
    have h2 : max A B = A := Nat.max_eq_left (Nat.le_of_lt h)
    have h3 : max A B - A = 0 := by omega
    simp [h1, h2, h3]
    omega

lemma filter_eq_singleton_of_unique {l : List GridmetCell}
    {p : GridmetCell → Bool} {c : GridmetCell}
    (hpc : p c = true)
    (huniq : ∀ d ∈ l, p d = true → d = c)
    (honce : l.count c = 1) :
    l.filter p = [c] := by
  have hall : ∀ d ∈ l.filter p, d = c := by
    intro d hd
    rw [List.mem_filter] at hd
    exact huniq d hd.1 hd.2
  have hrep := List.eq_replicate_of_mem hall
  have hcount : (l.filter p).count c = l.count c := List.count_filter hpc
  have hlen : (l.filter p).length = 1 := by
    have : (l.filter p).count c = (l.filter p).length := by
      rw [hrep]
      simp [List.count_replicate]
    omega
  rw [hrep, hlen]
  rfl

lemma gridmet_zonal_stats_run_has_column (existing : Option SummaryTable)
    (gridmet_ids : List ℤ) (means : List ℚ) (var_name : String) :
    ∃ t, gridmet_zonal_stats_run existing gridmet_ids means var_name = some t ∧
      var_name ∈ t.columns := by
  rcases existing with _ | t0
  · exact ⟨_, rfl, by simp⟩
  · by_cases hv : var_name ∈ t0.columns
    · exact ⟨t0,
        by simp [gridmet_zonal_stats_run, gridmet_zonal_stats_write, hv], hv⟩
    · refine ⟨merge_on_id t0 (((gridmet_ids.zip means).filter
        (fun p => p.1 ≠ -999))) var_name, ?_, ?_⟩
      · simp [gridmet_zonal_stats_run, gridmet_zonal_stats_write, hv]
      · simp [merge_on_id]

lemma pointValueAux_at_point (x y power v : ℝ) (after : List (ℝ × ℝ × ℝ)) :
    ∀ (before : List (ℝ × ℝ × ℝ)) (nom den : ℝ),
      (∀ p ∈ before,
        ¬ Real.sqrt ((x - p.1) * (x - p.1) + (y - p.2.1) * (y - p.2.1)
          + (0 : ℝ) ^ 2) < 1e-10) →
      pointValueAux x y power 0 (before ++ (x, y, v) :: after) nom den = v := by
  intro before
  induction before with
  | nil =>
    intro nom den _
    simp only [List.nil_append, pointValueAux]
    rw [if_pos]
    have harg : (x - x) * (x - x) + (y - y) * (y - y) + (0 : ℝ) ^ 2 = 0 := by
      norm_num
    rw [harg, Real.sqrt_zero]
    norm_num
  | cons p rest ih =>
    intro nom den h
    obtain ⟨xi, yi, vi⟩ := p
    simp only [List.cons_append, pointValueAux]
    rw [if_neg (by simpa using h (xi, yi, vi) (List.mem_cons_self _ _))]
    exact ih _ _ (fun q hq => h q (List.mem_cons_of_mem _ hq))

end Gridwxcomp

namespace Gridwxcomp

/-- Claim C1 (counterexample): the partial-write-safety property fails on
the code.  During a rebuild with `overwrite=True` over an existing grid
(here 2 × 2 cells), the output path passes through states that are neither
the old grid nor the finished new grid: `make_grid` removes the prior
output with `os.remove` before constructing the lattice in place. -/
theorem make_grid_not_atomic :
    ¬ grid_atomic_claim (make_grid_trace true true 2 2) 4 := by
  intro h
  have habs := h GridObs.absent (by decide)
  simp at habs

/-- Claim C1 (amended): when the grid exists and `overwrite` is false,
`make_grid` is a no-op leaving the old grid in place; a rebuild ends with
the complete identifier-assigned grid of `rows * cols` cells, but along
the way the output path observably holds no file (right after
`os.remove`) and later the identifier-less lattice (only the identifier
assignment of `_update_subgrid` goes through a temporary file that is
moved over the output). -/
theorem make_grid_rebuild_behaviour (rows cols : ℕ) :
    make_grid_trace true false rows cols = [GridObs.oldGrid] ∧
    (make_grid_trace true true rows cols).getLast?
      = some (GridObs.completeGrid (rows * cols)) ∧
    GridObs.absent ∈ make_grid_trace true true rows cols ∧
    GridObs.latticeNoIDs (rows * cols) ∈ make_grid_trace true true rows cols := by
  refine ⟨by simp [make_grid_trace], ?_, ?_, ?_⟩
  · have hshape : make_grid_trace true true rows cols
        = ([GridObs.oldGrid, GridObs.absent, GridObs.partialGrid 0]
            ++ (List.range (rows * cols)).map (fun k => GridObs.partialGrid (k + 1))
            ++ [GridObs.latticeNoIDs (rows * cols), GridObs.latticeNoIDs (rows * cols)])
          ++ [GridObs.completeGrid (rows * cols)] := by
      simp [make_grid_trace]
    rw [hshape, List.getLast?_concat]
  · simp [make_grid_trace]
  · simp [make_grid_trace]

/-- Claim C2 (code bug): with two stations one of which has a missing
(`NaN`) value, only one point with a defined value remains, yet the
missing-data step of `interpolate` proceeds instead of skipping (its skip
condition `len(mask) == n_missing or len(mask) == 1` only fires when all
values are missing or there is exactly one station in total); likewise a
single station with a defined value proceeds. -/
theorem interpolate_mask_single_valid_proceeds :
    mask_missing [some 1, none] [0, 1] [0, 0] = MaskStep.proceed [1] [0] [0] ∧
    ([some (1 : ℚ), none].filterMap id).length = 1 ∧
    mask_missing [some (1 : ℚ)] [0] [0] = MaskStep.proceed [1] [0] [0] := by
  decide

/-- Claim C3 (counterexample): with the default smoothing 10 and power 2,
the estimator evaluated exactly at the location of the input point
`(0, 0)` with value `1` does not return `1`: the guard tests
`sqrt(d^2 + smoothing^2) < 1e-10`, which never fires once
`smoothing = 10`, so the weighted average `401/201` is returned instead. -/
theorem pointValue_default_smoothing_breaks_exactness :
    pointValue 0 0 2 10 [((0 : ℝ), 0, 1), (1, 0, 3)] = 401 / 201 ∧
    ((401 : ℝ) / 201 ≠ 1) := by
  constructor
  · have e1 : ((0 : ℝ) - 0) * ((0 : ℝ) - 0) + ((0 : ℝ) - 0) * ((0 : ℝ) - 0)
        + (10 : ℝ) ^ 2 = 10 ^ 2 := by norm_num
    have hd1 : Real.sqrt (((0 : ℝ) - 0) * ((0 : ℝ) - 0)
        + ((0 : ℝ) - 0) * ((0 : ℝ) - 0) + (10 : ℝ) ^ 2) = 10 := by
      rw [e1, Real.sqrt_sq (by norm_num : (0 : ℝ) ≤ 10)]
    have e2 : ((0 : ℝ) - 1) * ((0 : ℝ) - 1) + ((0 : ℝ) - 0) * ((0 : ℝ) - 0)
        + (10 : ℝ) ^ 2 = 101 := by norm_num
    have hs101 : (1 : ℝ) ≤ Real.sqrt 101 := by
      rw [show (1 : ℝ) = Real.sqrt 1 by simp]
      exact Real.sqrt_le_sqrt (by norm_num)
    have hr1 : Real.rpow 10 2 = 100 := by
      rw [show Real.rpow (10 : ℝ) 2 = (10 : ℝ) ^ (2 : ℝ) from rfl,
        Real.rpow_two]
      norm_num
    have hr2 : Real.rpow (Real.sqrt 101) 2 = 101 := by
      rw [show Real.rpow (Real.sqrt 101) 2 = Real.sqrt 101 ^ (2 : ℝ) from rfl,
        Real.rpow_two]
      exact Real.sq_sqrt (by norm_num)
    simp only [pointValue, pointValueAux]
    rw [hd1, if_neg (by norm_num), e2]
    rw [if_neg (not_lt.mpr (le_trans (by norm_num) hs101))]
    rw [hr1, hr2]
    rw [if_pos (by norm_num)]
    norm_num
  · norm_num

/-- Claim C3 (amended): when `smoothing = 0`, evaluating the estimator at
a node coinciding exactly with an input point returns that point's value
(for any power), provided no earlier-listed point also lies within the
`1e-10` guard distance of the node; for `|smoothing| >= 1e-10` (including
the default 10) the guard never fires and the original claim fails. -/
theorem pointValue_at_point_smoothing_zero (x y power v : ℝ)
    (before after : List (ℝ × ℝ × ℝ))
    (h : ∀ p ∈ before,
      ¬ Real.sqrt ((x - p.1) * (x - p.1) + (y - p.2.1) * (y - p.2.1)
        + (0 : ℝ) ^ 2) < 1e-10) :
    pointValue x y power 0 (before ++ (x, y, v) :: after) = v :=
  pointValueAux_at_point x y power v after before 0 0 h

/-- Witness for the amended claim C3: at concrete inputs the hypothesis is
satisfiable and the estimator returns the coinciding point's value. -/
theorem pointValue_at_point_smoothing_zero_witness :
    pointValue 0 0 2 0 [((1 : ℝ), 0, 3), (0, 0, 1)] = 1 := by
  refine pointValue_at_point_smoothing_zero 0 0 2 1 [((1 : ℝ), 0, 3)] [] ?_
  intro p hp
  simp only [List.mem_singleton] at hp
  subst hp
  have harg : ((0 : ℝ) - 1) * ((0 : ℝ) - 1) + ((0 : ℝ) - 0) * ((0 : ℝ) - 0)
      + (0 : ℝ) ^ 2 = 1 := by norm_num
  rw [harg, Real.sqrt_one]
  norm_num

/-- Claim C4: for a nonempty point set and buffer >= 0, the Bounds
Calculator returns exactly the minimal bounding rectangle expanded by
half a cell and then by `buffer` cells per edge; consequently the bounds
strictly contain every input point, and with buffer = 0 each edge lies
exactly half a cell beyond the extreme coordinates. -/
theorem get_subgrid_bounds_spec (pts : List (ℚ × ℚ)) (buffer : ℤ)
    (hne : pts ≠ []) (hb : 0 ≤ buffer) :
    get_subgrid_bounds true pts buffer = .ok (spec_bounds pts buffer) ∧
    (∀ p ∈ pts,
      (spec_bounds pts buffer).1 < p.1 ∧ p.1 < (spec_bounds pts buffer).2.1 ∧
      (spec_bounds pts buffer).2.2.1 < p.2 ∧
      p.2 < (spec_bounds pts buffer).2.2.2) ∧
    (spec_bounds pts 0).1 = bbox_min (pts.map Prod.fst) - CELL_SIZE / 2 ∧
    (spec_bounds pts 0).2.1 = bbox_max (pts.map Prod.fst) + CELL_SIZE / 2 ∧
    (spec_bounds pts 0).2.2.1 = bbox_min (pts.map Prod.snd) - CELL_SIZE / 2 ∧
    (spec_bounds pts 0).2.2.2 = bbox_max (pts.map Prod.snd) + CELL_SIZE / 2 := by
  have hlon_ne : (pts.map Prod.fst).mergeSort qle ≠ [] := by
    intro hnil
    have := congrArg List.length hnil
    simp at this
    exact hne this
  have hlat_ne : (pts.map Prod.snd).mergeSort qle ≠ [] := by
    intro hnil
    have := congrArg List.length hnil
    simp at this
    exact hne this
  obtain ⟨l0, ls, hl⟩ := List.exists_cons_of_ne_nil hlon_ne
  obtain ⟨t0, ts, ht⟩ := List.exists_cons_of_ne_nil hlat_ne
  obtain ⟨hl_min, hl_max⟩ := mergeSort_head_getLast _ _ _ hl
  obtain ⟨ht_min, ht_max⟩ := mergeSort_head_getLast _ _ _ ht
  have hmain : get_subgrid_bounds true pts buffer
      = .ok (spec_bounds pts buffer) := by
    simp only [get_subgrid_bounds, Bool.not_true, Bool.false_eq_true,
      if_false, hl, ht]
    rw [spec_bounds, ← hl_min, ← hl_max, ← ht_min, ← ht_max]
  have hpos : 0 < CELL_SIZE / 2 + CELL_SIZE * (buffer : ℚ) := by
    have h1 : 0 < CELL_SIZE / 2 := by
      have := CELL_SIZE_pos
      linarith
    have h2 : (0 : ℚ) ≤ CELL_SIZE * (buffer : ℚ) := by
      apply mul_nonneg (le_of_lt CELL_SIZE_pos)
      exact_mod_cast hb
    linarith
  refine ⟨hmain, ?_, by simp [spec_bounds], by simp [spec_bounds],
    by simp [spec_bounds], by simp [spec_bounds]⟩
  intro p hp
  have h1 : bbox_min (pts.map Prod.fst) ≤ p.1 :=
    bbox_min_le (List.mem_map_of_mem Prod.fst hp)
  have h2 : p.1 ≤ bbox_max (pts.map Prod.fst) :=
    le_bbox_max (List.mem_map_of_mem Prod.fst hp)
  have h3 : bbox_min (pts.map Prod.snd) ≤ p.2 :=
    bbox_min_le (List.mem_map_of_mem Prod.snd hp)
  have h4 : p.2 ≤ bbox_max (pts.map Prod.snd) :=
    le_bbox_max (List.mem_map_of_mem Prod.snd hp)
  simp only [spec_bounds]
  refine ⟨by linarith, by linarith, by linarith, by linarith⟩

/-- Witness for claim C4 at a concrete two-point input with buffer 25. -/
theorem get_subgrid_bounds_spec_witness :
    ([((1 : ℚ), 2), (3, 4)] ≠ ([] : List (ℚ × ℚ))) ∧ ((0 : ℤ) ≤ 25) ∧
    get_subgrid_bounds true [((1 : ℚ), 2), (3, 4)] 25
      = .ok (spec_bounds [((1 : ℚ), 2), (3, 4)] 25) := by
  have h := get_subgrid_bounds_spec [((1 : ℚ), 2), (3, 4)] 25
    (by decide) (by decide)
  exact ⟨by decide, by decide, h.1⟩

/-- Claim C5 (counterexample): on an empty point set with the summary file
present, `get_subgrid_bounds` fails with `IndexError` (indexing the empty
sorted array), not with the missing-input `FileNotFoundError` the claim
names for this situation. -/
theorem get_subgrid_bounds_empty_not_missing_input :
    get_subgrid_bounds true [] 25 = .error .indexError ∧
    PyError.indexError ≠ PyError.fileNotFound := by
  constructor
  · simp [get_subgrid_bounds]
  · decide

/-- Claim C5 (amended): the Bounds Calculator raises the missing-input
`FileNotFoundError` exactly when the source table cannot be located; an
empty point set also returns no bounds but fails with an out-of-bounds
`IndexError` instead; on a nonempty point set with the file present it
returns bounds. -/
theorem get_subgrid_bounds_error_cases (pts : List (ℚ × ℚ)) (buffer : ℤ)
    (hne : pts ≠ []) :
    get_subgrid_bounds false pts buffer = .error .fileNotFound ∧
    get_subgrid_bounds true ([] : List (ℚ × ℚ)) buffer = .error .indexError ∧
    ∃ b, get_subgrid_bounds true pts buffer = .ok b := by
  refine ⟨by simp [get_subgrid_bounds], by simp [get_subgrid_bounds], ?_⟩
  have hlon_ne : (pts.map Prod.fst).mergeSort qle ≠ [] := by
    intro hnil
    have := congrArg List.length hnil
    simp at this
    exact hne this
  have hlat_ne : (pts.map Prod.snd).mergeSort qle ≠ [] := by
    intro hnil
    have := congrArg List.length hnil
    simp at this
    exact hne this
  obtain ⟨l0, ls, hl⟩ := List.exists_cons_of_ne_nil hlon_ne
  obtain ⟨t0, ts, ht⟩ := List.exists_cons_of_ne_nil hlat_ne
  simp only [get_subgrid_bounds, Bool.not_true, Bool.false_eq_true,
    if_false, hl, ht]
  exact ⟨_, rfl⟩

/-- Witness for the amended claim C5 at a concrete one-point input. -/
theorem get_subgrid_bounds_error_cases_witness :
    ([((1 : ℚ), 2)] ≠ ([] : List (ℚ × ℚ))) ∧
    get_subgrid_bounds false [((1 : ℚ), 2)] 25 = .error .fileNotFound := by
  exact ⟨by decide,
    (get_subgrid_bounds_error_cases [((1 : ℚ), 2)] 25 (by decide)).1⟩

end Gridwxcomp

namespace Gridwxcomp

/-- Claim C6: each axis cell count is `round(axisSpan / cellSize)`; when
the counts differ, the smaller-count axis is extended to match the larger
(its count grows by the difference, its max coordinate by the difference
times the cell size) while the longer axis is unchanged; the pre-extension
counts and max coordinates are recorded separately and are the values used
for the raster pixel counts (clipping) and for the geotransform origin. -/
theorem interpolate_lattice_extension
    (lon_min lon_max lat_min lat_max scale_factor : ℚ)
    (A B : ℕ) (hA : A = (npRound |(lon_min - lon_max) / CELL_SIZE|).toNat)
    (hB : B = (npRound |(lat_min - lat_max) / CELL_SIZE|).toNat) :
    (latticeDims lon_min lon_max lat_min lat_max).nx_cells = max A B ∧
    (latticeDims lon_min lon_max lat_min lat_max).ny_cells = max A B ∧
    (latticeDims lon_min lon_max lat_min lat_max).lat_max
      = lat_max + ((max A B - B : ℕ) : ℚ) * CELL_SIZE ∧
    (latticeDims lon_min lon_max lat_min lat_max).lon_max
      = lon_max + ((max A B - A : ℕ) : ℚ) * CELL_SIZE ∧
    (latticeDims lon_min lon_max lat_min lat_max).nx_cells_out = A ∧
    (latticeDims lon_min lon_max lat_min lat_max).ny_cells_out = B ∧
    (latticeDims lon_min lon_max lat_min lat_max).lat_max_out = lat_max ∧
    (latticeDims lon_min lon_max lat_min lat_max).lon_max_out = lon_max ∧
    (interpRasterMeta lon_min lon_max lat_min lat_max scale_factor).x_size
      = (npRound ((A : ℚ) / scale_factor)).toNat + 1 ∧
    (interpRasterMeta lon_min lon_max lat_min lat_max scale_factor).y_size
      = (npRound ((B : ℚ) / scale_factor)).toNat + 1 ∧
    (interpRasterMeta lon_min lon_max lat_min lat_max scale_factor).gt
      = [lon_min, CELL_SIZE * scale_factor, 0, lat_max, 0,
        -(CELL_SIZE * scale_factor)] := by
  subst hA hB
  have hd := latticeDims_eq lon_min lon_max lat_min lat_max
  refine ⟨?_, ?_, ?_, ?_, ?_, ?_, ?_, ?_, ?_, ?_, ?_⟩ <;>
    simp [interpRasterMeta, hd]

/-- Witness for claim C6 at concrete bounds spanning 2 cells by 1 cell
with scale factor 1: the lattice is extended to 2 × 2 while the recorded
pre-extension dimensions stay 2 × 1. -/
theorem interpolate_lattice_extension_witness :
    ((2 : ℕ) = (npRound |((0 : ℚ) - 2 * CELL_SIZE) / CELL_SIZE|).toNat) ∧
    ((1 : ℕ) = (npRound |((0 : ℚ) - CELL_SIZE) / CELL_SIZE|).toNat) ∧
    (latticeDims 0 (2 * CELL_SIZE) 0 CELL_SIZE).nx_cells = max 2 1 ∧
    (latticeDims 0 (2 * CELL_SIZE) 0 CELL_SIZE).ny_cells = max 2 1 ∧
    (latticeDims 0 (2 * CELL_SIZE) 0 CELL_SIZE).ny_cells_out = 1 := by
  have hA : (2 : ℕ) = (npRound |((0 : ℚ) - 2 * CELL_SIZE) / CELL_SIZE|).toNat := by
    norm_num [npRound, CELL_SIZE]
    rfl
  have hB : (1 : ℕ) = (npRound |((0 : ℚ) - CELL_SIZE) / CELL_SIZE|).toNat := by
    norm_num [npRound, CELL_SIZE]
  have h := interpolate_lattice_extension 0 (2 * CELL_SIZE) 0 CELL_SIZE 1
    2 1 hA hB
  exact ⟨hA, hB, h.1, h.2.1, h.2.2.2.2.2.1⟩

/-- Claim C7 (counterexample): a cell centroid that exactly equals the
first catalog row's centroid `(1, 1)` is nevertheless assigned the
sentinel `-999`, because a second catalog row lies within the `np.isclose`
tolerance and the lookup requires exactly one match. -/
theorem get_cell_ID_exact_match_not_returned :
    cell_centroid unitCellCoords = (1, 1) ∧
    GridmetCell.mk 7 1 1 ∈ closeCatalog ∧
    get_cell_ID unitCellCoords closeCatalog = -999 ∧
    ((-999 : ℤ) ≠ 7) := by
  have hc : cell_centroid unitCellCoords = (1, 1) := by
    norm_num [cell_centroid, poly_bounds_min, unitCellCoords, CELL_SIZE]
  refine ⟨hc, by simp [closeCatalog], ?_, by decide⟩
  norm_num [get_cell_ID, closeCatalog, hc, List.filter, np_isclose,
    abs_of_nonneg]

/-- Claim C7 (amended): the lookup uses numpy's mixed
relative-plus-absolute closeness `|a - b| <= 1e-8 + 1e-5 * |b|` on each
coordinate; when no catalog row is within tolerance of the centroid the
sentinel `-999` is assigned, and when a row within tolerance occurs
exactly once in the catalog and every row within tolerance is that row,
its identifier is assigned. -/
theorem get_cell_ID_match_cases (coords : List (ℚ × ℚ))
    (cell_data : List GridmetCell) :
    ((∀ d ∈ cell_data,
        (np_isclose d.LON (cell_centroid coords).1 &&
         np_isclose d.LAT (cell_centroid coords).2) = false) →
      get_cell_ID coords cell_data = -999) ∧
    (∀ c ∈ cell_data,
      (np_isclose c.LON (cell_centroid coords).1 &&
       np_isclose c.LAT (cell_centroid coords).2) = true →
      (∀ d ∈ cell_data,
        (np_isclose d.LON (cell_centroid coords).1 &&
         np_isclose d.LAT (cell_centroid coords).2) = true → d = c) →
      cell_data.count c = 1 →
      get_cell_ID coords cell_data = c.GRIDMET_ID) := by
  constructor
  · intro hnone
    have hfilter : cell_data.filter
        (fun d => np_isclose d.LON (cell_centroid coords).1 &&
          np_isclose d.LAT (cell_centroid coords).2) = [] := by
      rw [List.filter_eq_nil_iff]
      intro d hd
      simp [hnone d hd]
    simp [get_cell_ID, hfilter]
  · intro c _ hclose huniq honce
    have hfilter := filter_eq_singleton_of_unique hclose huniq honce
    simp [get_cell_ID, hfilter]

/-- Witness for the amended claim C7: on a catalog whose rows are far
apart, the cell with centroid `(1, 1)` receives identifier 7. -/
theorem get_cell_ID_match_cases_witness :
    get_cell_ID unitCellCoords farCatalog = 7 := by
  have hc : cell_centroid unitCellCoords = (1, 1) := by
    norm_num [cell_centroid, poly_bounds_min, unitCellCoords, CELL_SIZE]
  have hclose : (np_isclose (GridmetCell.mk 7 1 1).LON
      (cell_centroid unitCellCoords).1 &&
      np_isclose (GridmetCell.mk 7 1 1).LAT
      (cell_centroid unitCellCoords).2) = true := by
    rw [hc]
    norm_num [np_isclose]
  have hfar : (np_isclose (GridmetCell.mk 8 2 2).LON
      (cell_centroid unitCellCoords).1 &&
      np_isclose (GridmetCell.mk 8 2 2).LAT
      (cell_centroid unitCellCoords).2) = false := by
    rw [hc]
    norm_num [np_isclose, abs_of_nonneg]
  have huniq : ∀ d ∈ farCatalog,
      (np_isclose d.LON (cell_centroid unitCellCoords).1 &&
       np_isclose d.LAT (cell_centroid unitCellCoords).2) = true →
      d = GridmetCell.mk 7 1 1 := by
    intro d hd hdc
    simp only [farCatalog, List.mem_cons, List.mem_singleton] at hd
    rcases hd with rfl | hd
    · rfl
    · rcases hd with rfl | hd
      · rw [hfar] at hdc
        exact absurd hdc (by simp)
      · simp at hd
  have honce : farCatalog.count (GridmetCell.mk 7 1 1) = 1 := by decide
  exact (get_cell_ID_match_cases unitCellCoords farCatalog).2
    (GridmetCell.mk 7 1 1) (by simp [farCatalog]) hclose huniq honce

/-- Claim C8: whenever `gridmet_zonal_stats` persists a table — on the
create-new-table path or on the merge-into-existing path — no row of the
written table carries the sentinel identifier `-999`. -/
theorem gridmet_zonal_stats_no_sentinel (gridmet_ids : List ℤ)
    (means : List ℚ) (var_name : String) (existing : Option SummaryTable)
    (t : SummaryTable)
    (h : gridmet_zonal_stats_write gridmet_ids means var_name existing
      = some t) :
    ∀ r ∈ t.rows, r.1 ≠ -999 := by
  rcases existing with _ | t0
  · simp only [gridmet_zonal_stats_write, Option.some.injEq] at h
    subst h
    intro r hr
    simp only [List.mem_map, List.mem_filter] at hr
    obtain ⟨p, ⟨hmem, hp⟩, rfl⟩ := hr
    simpa using hp
  · by_cases hv : var_name ∈ t0.columns
    · simp [gridmet_zonal_stats_write, hv] at h
    · simp only [gridmet_zonal_stats_write, hv, if_neg, ite_false,
        Option.some.injEq] at h
      subst h
      intro r hr
      simp only [merge_on_id, List.mem_flatMap, List.mem_map,
        List.mem_filter] at hr
      obtain ⟨r0, hr0, n, ⟨⟨hn, hpred⟩, hkey⟩, rfl⟩ := hr
      have hne : n.1 ≠ -999 := by simpa using hpred
      have : n.1 = r0.1 := by simpa using hkey
      simpa [← this] using hne

/-- Witness for claim C8: on a concrete input containing a sentinel row,
the written table exists and carries no sentinel row. -/
theorem gridmet_zonal_stats_no_sentinel_witness :
    gridmet_zonal_stats_write [1, -999] [1/2, 3/4] "Jan" none
      = some ⟨["Jan"], [((1 : ℤ), [(1 : ℚ)/2])]⟩ ∧
    ∀ r ∈ (SummaryTable.mk ["Jan"] [((1 : ℤ), [(1 : ℚ)/2])]).rows,
      r.1 ≠ -999 := by
  have h : gridmet_zonal_stats_write [1, -999] [1/2, 3/4] "Jan" none
      = some ⟨["Jan"], [((1 : ℤ), [(1 : ℚ)/2])]⟩ := by
    simp [gridmet_zonal_stats_write, List.filter]
  exact ⟨h, gridmet_zonal_stats_no_sentinel _ _ _ _ _ h⟩

/-- Claim C9: when the target table exists and already holds a column of
the variable name, `gridmet_zonal_stats` performs no write; consequently
running the aggregator twice for the same variable leaves the persisted
table unchanged after the second call. -/
theorem gridmet_zonal_stats_idempotent (ids ids2 : List ℤ)
    (means means2 : List ℚ) (var_name : String) (e : Option SummaryTable)
    (t : SummaryTable) (hcol : var_name ∈ t.columns) :
    gridmet_zonal_stats_write ids2 means2 var_name (some t) = none ∧
    gridmet_zonal_stats_run (gridmet_zonal_stats_run e ids means var_name)
        ids2 means2 var_name
      = gridmet_zonal_stats_run e ids means var_name := by
  constructor
  · simp [gridmet_zonal_stats_write, hcol]
  · obtain ⟨t', ht', hc'⟩ :=
      gridmet_zonal_stats_run_has_column e ids means var_name
    rw [ht']
    simp [gridmet_zonal_stats_run, gridmet_zonal_stats_write, hc']

/-- Witness for claim C9 at a concrete table and variable. -/
theorem gridmet_zonal_stats_idempotent_witness :
    ("Jan" ∈ (SummaryTable.mk ["Jan"] []).columns) ∧
    gridmet_zonal_stats_write [1] [1/2] "Jan"
      (some (SummaryTable.mk ["Jan"] [])) = none ∧
    gridmet_zonal_stats_run (gridmet_zonal_stats_run none [1] [1/2] "Jan")
        [1] [1/2] "Jan"
      = gridmet_zonal_stats_run none [1] [1/2] "Jan" := by
  have hcol : "Jan" ∈
      (SummaryTable.mk ["Jan"] ([] : List (ℤ × List ℚ))).columns := by
    simp
  have h := gridmet_zonal_stats_idempotent [1] [1] [1/2] [1/2] "Jan" none
    (SummaryTable.mk ["Jan"] []) hcol
  exact ⟨hcol, h.1, h.2⟩

/-- Claim C10: `interpolate` replaces a smoothing or power argument of
exactly 0 (or `None`) by the defaults — smoothing 10 and power 3 for the
distance-weighted method, smoothing -0.001 for the radial-basis method —
so no caller can reach the distance-weighted method with smoothing 0 or
power 0 through this interface. -/
theorem interpolate_zero_params_replaced :
    eff_smooth_inv_dist (some 0) = 10 ∧ eff_smooth_inv_dist none = 10 ∧
    eff_power (some 0) = 3 ∧ eff_power none = 3 ∧
    eff_smooth_rbf (some 0) = -1e-3 ∧ eff_smooth_rbf none = -1e-3 ∧
    (∀ s, eff_smooth_inv_dist s ≠ 0) ∧ (∀ p, eff_power p ≠ 0) := by
  refine ⟨rfl, rfl, rfl, rfl, rfl, rfl, ?_, ?_⟩ <;> intro o <;>
    rcases o with _ | v
  · norm_num [eff_smooth_inv_dist]
  · by_cases hv : v = 0 <;> simp [eff_smooth_inv_dist, hv]
  · norm_num [eff_power]
  · by_cases hv : v = 0 <;> simp [eff_power, hv]

end Gridwxcomp
